import Mathlib

/-!
Verification of the `lambda-patterns` Handler (richest variant, `src/Handler.js`).

The development shallowly embeds:
  * the promise chain of `Handler.invoke` as a pure function from a
    behaviour oracle (outcomes of `init`, `process`, each `cleanup` call,
    each `respond` delivery attempt, and the final raw-callback fallback)
    to an event trace plus the settlement of the returned promise;
  * the shared per-environment state touched by the constructor
    (`isColdStart` flag, `coldStartPercentage` tracker) and the default
    `shouldProfile` strategies;
  * `Handler.stopProfiling`.

Machine integers do not occur (all counters are unbounded in JS for the
ranges involved); JS numbers in the percentage comparison are modelled as
rationals.
-/

namespace LambdaPatterns

/-- Observable events of one `invoke()` run.  A `respond` event records the
two arguments the code passes to `this.respond` (JS `null`/`undefined`
both become `none`); `callbackFallback` is the final direct
`this.callback(err)` call of the last `.catch`. -/
inductive Ev (ε ρ : Type) : Type
  | init : Ev ε ρ
  | process : Ev ε ρ
  | cleanup : Ev ε ρ
  | respond : Option ε → Option ρ → Ev ε ρ
  | callbackFallback : ε → Ev ε ρ
deriving DecidableEq, Repr

/-- Behaviour oracle for one invocation: what each stage does when called.
`none` means the call succeeds; `some e` means it throws or rejects with
error `e`.  `cleanup` and `respond` are indexed by call number because the
engine may call them more than once. -/
structure Beh (ε ρ : Type) : Type where
  init : Option ε
  process : Except ε ρ
  cleanup : Nat → Option ε
  respond : Nat → Option ε
  callback : Option ε

/-- Result of an `invoke()` run: the event trace and the settlement of the
returned promise (`none` = resolved, `some e` = rejected with `e`). -/
structure RunResult (ε ρ : Type) : Type where
  trace : List (Ev ε ρ)
  outcome : Option ε
deriving DecidableEq, Repr

/-- The tail `.catch(err => this.respond(err)).catch(err => this.callback(err))`
of the error branch of `invoke`: one more `respond` attempt with the error
`e`, then the raw-callback fallback. -/
def rungC (b : Beh ε ρ) (rIdx : Nat) (e : ε) (pre : List (Ev ε ρ)) :
    RunResult ε ρ :=
  let t := pre ++ [Ev.respond (some e) none]
  match b.respond rIdx with
  | none => ⟨t, none⟩
  | some e2 =>
    let t2 := t ++ [Ev.callbackFallback e2]
    match b.callback with
    | none => ⟨t2, none⟩
    | some e3 => ⟨t2, some e3⟩

/-- The error branch
`.catch(error => Promise.resolve().then(() => this.cleanup()).then(() => this.respond(error)).catch(err => this.respond(err)).catch(err => this.callback(err)))`
of `invoke`.  `cIdx`/`rIdx` are the indices of the next `cleanup`/`respond`
calls of this run. -/
def errorBranch (b : Beh ε ρ) (cIdx rIdx : Nat) (e : ε)
    (pre : List (Ev ε ρ)) : RunResult ε ρ :=
  let t := pre ++ [Ev.cleanup]
  match b.cleanup cIdx with
  | some ec => rungC b rIdx ec t
  | none =>
    let t2 := t ++ [Ev.respond (some e) none]
    match b.respond rIdx with
    | none => ⟨t2, none⟩
    | some e1 => rungC b (rIdx + 1) e1 t2

/-- `Handler.invoke` (richest variant):
`Promise.resolve().then(init).then(process).then(res => Promise.resolve().then(cleanup).then(() => respond(null, res))).catch(error => ...)`
with the error branch `errorBranch`. -/
def invoke (b : Beh ε ρ) : RunResult ε ρ :=
  match b.init with
  | some e => errorBranch b 0 0 e [Ev.init]
  | none =>
    match b.process with
    | Except.error e => errorBranch b 0 0 e [Ev.init, Ev.process]
    | Except.ok res =>
      match b.cleanup 0 with
      | some ec => errorBranch b 1 0 ec [Ev.init, Ev.process, Ev.cleanup]
      | none =>
        let t := [Ev.init, Ev.process, Ev.cleanup, Ev.respond none (some res)]
        match b.respond 0 with
        | none => ⟨t, none⟩
        | some e1 => errorBranch b 1 1 e1 t

/-- Is this event a `cleanup` call? -/
def isCleanup : Ev ε ρ → Bool
  | Ev.cleanup => true
  | _ => false

/-- Is this event a `respond` delivery attempt? -/
def isRespond : Ev ε ρ → Bool
  | Ev.respond _ _ => true
  | _ => false

/-- Is this event the raw-callback fallback? -/
def isFallback : Ev ε ρ → Bool
  | Ev.callbackFallback _ => true
  | _ => false

/-- Number of `cleanup` calls in a trace. -/
def countCleanup (l : List (Ev ε ρ)) : Nat := l.countP (fun ev => isCleanup ev)

/-- Number of `respond` delivery attempts in a trace. -/
def countRespond (l : List (Ev ε ρ)) : Nat := l.countP (fun ev => isRespond ev)

/-- Number of raw-callback fallback calls in a trace. -/
def countFallback (l : List (Ev ε ρ)) : Nat := l.countP (fun ev => isFallback ev)

/-- Scanning the trace left to right, the first event that is either a
`cleanup` or a `respond` is a `cleanup` (or neither ever occurs): some
cleanup run precedes every respond delivery attempt. -/
def cleanupBeforeRespond : List (Ev ε ρ) → Bool
  | [] => true
  | Ev.cleanup :: _ => true
  | Ev.respond _ _ :: _ => false
  | _ :: rest => cleanupBeforeRespond rest

/-- Arguments of the platform-callback invocations of a run, in order: the
`respond` attempts (which proxy `this.callback(error, response)`) and the
direct fallback `this.callback(err)` (whose second argument is
`undefined`). -/
def callbackCalls : List (Ev ε ρ) → List (Option ε × Option ρ)
  | [] => []
  | Ev.respond e r :: rest => (e, r) :: callbackCalls rest
  | Ev.callbackFallback e :: rest => (some e, none) :: callbackCalls rest
  | _ :: rest => callbackCalls rest

/-- The list of errors handed to the raw-callback fallback. -/
def fallbackErrors : List (Ev ε ρ) → List ε
  | [] => []
  | Ev.callbackFallback e :: rest => e :: fallbackErrors rest
  | _ :: rest => fallbackErrors rest

/-- The error arguments of the successive `respond` delivery attempts. -/
def respondErrArgs : List (Ev ε ρ) → List (Option ε)
  | [] => []
  | Ev.respond e _ :: rest => e :: respondErrArgs rest
  | _ :: rest => respondErrArgs rest

/-- Did the process stage succeed?  Used to state, from the behaviour
alone, whether a run enters the error branch from a success-path delivery
failure (the one place where a second cleanup run is interposed before
the retry). -/
def processOk : Except ε ρ → Bool
  | Except.ok _ => true
  | Except.error _ => false

/-- Modelled from the spec: the `percentage-incrementor` package used for
`coldStartPercentage` and `profilePercentage` is a dependency whose source
is not part of this repository, so the RatioTracker of spec §3/§4.4 is
taken from the spec's words: a `total` counter, a `subset` counter and a
`predicate`; `increment(value)` adds one to `total` and adds one to
`subset` iff `predicate(value)`. -/
structure RatioTracker (α : Type) : Type where
  predicate : α → Bool
  total : Nat
  subset : Nat

/-- Modelled from the spec: `increment(value)`. -/
def RatioTracker.increment (t : RatioTracker α) (v : α) : RatioTracker α :=
  ⟨t.predicate, t.total + 1, t.subset + (if t.predicate v then 1 else 0)⟩

/-- Modelled from the spec: `percentage()` is `subset / total`, defined as
`0` when `total == 0` (this is also the numeric coercion the tracker
object undergoes in `profilePercentage * 100`; JS numbers are modelled as
rationals). -/
def RatioTracker.percentage (t : RatioTracker α) : ℚ :=
  if t.total = 0 then 0 else (t.subset : ℚ) / (t.total : ℚ)

/-- The handler options consulted by the default `shouldProfile`
(`options.profileStrategy`, `options.profilePercentage`). -/
structure Options : Type where
  profileStrategy : String
  profilePercentage : ℚ

/-- The per-instance data of a constructed `Handler` that the default
`shouldProfile` reads: `this.isColdStart` and
`this.container.totalInvocations` (a snapshot taken at construction). -/
structure HandlerInstance : Type where
  isColdStart : Bool
  totalInvocations : Nat

/-- The static `Handler.shouldProfile(handler)` switch on
`handler.options.profileStrategy`; `tracker` is the module-level
`profilePercentage` tracker whose numeric value is compared against
`handler.options.profilePercentage` after scaling by 100.  The `default`
case of the switch leaves `shouldProfile` at `false`. -/
def shouldProfile (opts : Options) (inst : HandlerInstance)
    (tracker : RatioTracker Bool) : Bool :=
  if opts.profileStrategy = "ALWAYS" then true
  else if opts.profileStrategy = "ALL_COLD_STARTS" then inst.isColdStart
  else if opts.profileStrategy = "ONE_COLD_ONE_WARM" then
    decide (inst.totalInvocations < 3)
  else if opts.profileStrategy = "PERCENTAGE" then
    decide (tracker.percentage * 100 < opts.profilePercentage)
  else false

/-- One `init()` profiling step: decide with `shouldProfile`, then record
the decision into the `profilePercentage` tracker
(`profilePercentage.increment(this.profilingEnabled)`). -/
def initProfilingStep (opts : Options) (inst : HandlerInstance)
    (t : RatioTracker Bool) : Bool × RatioTracker Bool :=
  let d := shouldProfile opts inst t
  (d, t.increment d)

/-- The profiling decisions of `n` successive invocations that share the
handler context `inst` and the module-level tracker, starting from tracker
state `t`. -/
def profileDecisions (opts : Options) (inst : HandlerInstance) :
    Nat → RatioTracker Bool → List Bool
  | 0, _ => []
  | n + 1, t =>
    let s := initProfilingStep opts inst t
    s.1 :: profileDecisions opts inst n s.2

/-- A fresh `profilePercentage` tracker: predicate
`isProfiling => !!isProfiling` (the identity on booleans), both counters
zero. -/
def freshProfileTracker : RatioTracker Bool := ⟨fun b => b, 0, 0⟩

/-- The module-level state of `Handler.js` touched at construction: the
`isColdStart` flag and the `coldStartPercentage` tracker (predicate
`isColdStart => !!isColdStart`). -/
structure Env : Type where
  isColdStart : Bool
  coldStartPercentage : RatioTracker Bool

/-- The state of a freshly started execution environment. -/
def freshEnv : Env := ⟨true, ⟨fun b => b, 0, 0⟩⟩

/-- The shared-state effect of the `Handler` constructor:
`this.isColdStart = isColdStart; isColdStart = false;
coldStartPercentage.increment(this.isColdStart);
this.container.totalInvocations = coldStartPercentage.total`. -/
def construct (env : Env) : HandlerInstance × Env :=
  let cold := env.isColdStart
  let csp := env.coldStartPercentage.increment cold
  (⟨cold, csp.total⟩, ⟨false, csp⟩)

/-- Run `n` successive `Handler` constructions in one execution
environment starting fresh, returning the constructed instances in order
and the final shared state. -/
def runConstructions : Nat → List HandlerInstance × Env
  | 0 => ([], freshEnv)
  | n + 1 =>
    let r := runConstructions n
    let c := construct r.2
    (r.1 ++ [c.1], c.2)

/-- The shared state after `n` constructions in a fresh environment. -/
def envAfter (n : Nat) : Env := (runConstructions n).2

/-- The instance produced by the `(k+1)`-th construction (0-indexed `k`)
in a fresh environment. -/
def instanceAt (k : Nat) : HandlerInstance := (construct (envAfter k)).1

/-- Static profiling state read by `stopProfiling`: whether profiling was
enabled for this invocation, and whether the lazily-required
`Handler.profiler` / `Handler.zlib` bindings are present. -/
structure ProfState : Type where
  profilingEnabled : Bool
  profilerLoaded : Bool
  zlibLoaded : Bool

/-- Outcome of one `stopProfiling()` call: whether
`profiler.stopProfiling` was called, the value stored in `this.profile`,
whether `profile.delete()` was called, and the error (if any) escaping
`stopProfiling`. -/
structure StopResult (ε : Type) : Type where
  stoppedProfiler : Bool
  profile : Option String
  deleted : Bool
  error : Option ε
deriving DecidableEq, Repr

/-- `Handler.stopProfiling`: return early unless profiling was enabled and
the profiler binding is present; otherwise obtain the profile object, and
if the zlib binding is present run the encode step
`zlib.deflateSync(JSON.stringify(profile)).toString('base64')` (modelled
by the oracle `encode`, which may throw); finally call
`profile.delete()`.  There is no try/finally: an encode throw propagates
immediately and skips the `delete` call. -/
def stopProfiling (st : ProfState) (encode : Except ε String) :
    StopResult ε :=
  if !st.profilingEnabled || !st.profilerLoaded then ⟨false, none, false, none⟩
  else
    if st.zlibLoaded then
      match encode with
      | Except.error e => ⟨true, none, false, some e⟩
      | Except.ok s => ⟨true, some s, true, none⟩
    else ⟨true, none, true, none⟩

/-- Concrete behaviour: every stage succeeds, the processor returns `7`,
but the first `respond` delivery attempt fails with error `5`. -/
def behRespondFails : Beh Nat Nat :=
  ⟨none, Except.ok 7, fun _ => none, fun n => if n = 0 then some 5 else none,
    none⟩

/-- Concrete behaviour: the first `respond` delivery attempt fails with
error `5`, and the second `cleanup` run fails with error `9`. -/
def behCleanupRetryFails : Beh Nat Nat :=
  ⟨none, Except.ok 7, fun n => if n = 0 then none else some 9,
    fun n => if n = 0 then some 5 else none, none⟩

/-- Concrete behaviour: every `respond` delivery attempt fails (attempt
`n` with error `n + 1`) and the raw callback succeeds. -/
def behAllDeliveriesFail : Beh Nat Nat :=
  ⟨none, Except.ok 7, fun _ => none, fun n => some (n + 1), none⟩

/-- Concrete behaviour: every `respond` delivery attempt fails and the
final raw-callback fallback itself throws error `3`. -/
def behFallbackThrows : Beh Nat Nat :=
  ⟨none, Except.ok 7, fun _ => none, fun n => some (n + 1), some 3⟩

/-- Concrete behaviour: all stages succeed and the processor returns `7`. -/
def behHappy : Beh Nat Nat :=
  ⟨none, Except.ok 7, fun _ => none, fun _ => none, none⟩

/-- Concrete behaviour: the processor throws `4`; everything else
succeeds. -/
def behProcessThrows : Beh Nat Nat :=
  ⟨none, Except.error 4, fun _ => none, fun _ => none, none⟩

/-! ## Helper lemmas -/

theorem rungC_spec (b : Beh ε ρ) (r : Nat) (e : ε) (pre : List (Ev ε ρ)) :
    (b.respond r = none ∧
      rungC b r e pre = ⟨pre ++ [Ev.respond (some e) none], none⟩) ∨
    (∃ e2, b.respond r = some e2 ∧
      rungC b r e pre =
        ⟨pre ++ [Ev.respond (some e) none, Ev.callbackFallback e2],
          b.callback⟩) := by
  rcases hr : b.respond r with _ | e2
  · exact Or.inl ⟨rfl, by simp [rungC, hr]⟩
  · refine Or.inr ⟨e2, rfl, ?_⟩
    rcases hcb : b.callback with _ | e3 <;> simp [rungC, hr, hcb]

theorem errorBranch_spec (b : Beh ε ρ) (c r : Nat) (e : ε)
    (pre : List (Ev ε ρ)) :
    (b.cleanup c = none ∧ b.respond r = none ∧
      errorBranch b c r e pre =
        ⟨pre ++ [Ev.cleanup, Ev.respond (some e) none], none⟩) ∨
    (∃ ec, b.cleanup c = some ec ∧
      errorBranch b c r e pre = rungC b r ec (pre ++ [Ev.cleanup])) ∨
    (∃ e1, b.cleanup c = none ∧ b.respond r = some e1 ∧
      errorBranch b c r e pre =
        rungC b (r + 1) e1
          (pre ++ [Ev.cleanup, Ev.respond (some e) none])) := by
  rcases hc : b.cleanup c with _ | ec
  · rcases hr : b.respond r with _ | e1
    · exact Or.inl ⟨rfl, rfl, by simp [errorBranch, hc, hr]⟩
    · exact Or.inr (Or.inr ⟨e1, rfl, rfl, by simp [errorBranch, hc, hr]⟩)
  · exact Or.inr (Or.inl ⟨ec, rfl, by simp [errorBranch, hc]⟩)

theorem invoke_top_spec (b : Beh ε ρ) :
    (∃ e, b.init = some e ∧ invoke b = errorBranch b 0 0 e [Ev.init]) ∨
    (∃ e, b.init = none ∧ b.process = Except.error e ∧
      invoke b = errorBranch b 0 0 e [Ev.init, Ev.process]) ∨
    (∃ res ec, b.init = none ∧ b.process = Except.ok res ∧
      b.cleanup 0 = some ec ∧
      invoke b = errorBranch b 1 0 ec [Ev.init, Ev.process, Ev.cleanup]) ∨
    (∃ res, b.init = none ∧ b.process = Except.ok res ∧
      b.cleanup 0 = none ∧ b.respond 0 = none ∧
      invoke b =
        ⟨[Ev.init, Ev.process, Ev.cleanup, Ev.respond none (some res)],
          none⟩) ∨
    (∃ res e1, b.init = none ∧ b.process = Except.ok res ∧
      b.cleanup 0 = none ∧ b.respond 0 = some e1 ∧
      invoke b =
        errorBranch b 1 1 e1
          [Ev.init, Ev.process, Ev.cleanup, Ev.respond none (some res)]) := by
  rcases hi : b.init with _ | e
  · rcases hp : b.process with e | res
    · exact Or.inr (Or.inl ⟨e, rfl, rfl, by simp [invoke, hi, hp]⟩)
    · rcases hc : b.cleanup 0 with _ | ec
      · rcases hr : b.respond 0 with _ | e1
        · exact Or.inr (Or.inr (Or.inr (Or.inl
            ⟨res, rfl, rfl, rfl, rfl, by simp [invoke, hi, hp, hc, hr]⟩)))
        · exact Or.inr (Or.inr (Or.inr (Or.inr
            ⟨res, e1, rfl, rfl, rfl, rfl, by simp [invoke, hi, hp, hc, hr]⟩)))
      · exact Or.inr (Or.inr (Or.inl
          ⟨res, ec, rfl, rfl, rfl, by simp [invoke, hi, hp, hc]⟩))
  · exact Or.inl ⟨e, rfl, by simp [invoke, hi]⟩

theorem envAfter_zero : envAfter 0 = freshEnv := rfl

theorem envAfter_succ (n : Nat) :
    envAfter (n + 1) = (construct (envAfter n)).2 := by
  simp [envAfter, runConstructions]

theorem envAfter_predicate (n : Nat) :
    (envAfter n).coldStartPercentage.predicate = fun b => b := by
  induction n with
  | zero => rfl
  | succ n ih =>
    rw [envAfter_succ]
    simp [construct, RatioTracker.increment, ih]

theorem envAfter_isColdStart (n : Nat) :
    (envAfter n).isColdStart = decide (n = 0) := by
  cases n with
  | zero => rfl
  | succ n => rw [envAfter_succ]; simp [construct]

theorem envAfter_total (n : Nat) :
    (envAfter n).coldStartPercentage.total = n := by
  induction n with
  | zero => rfl
  | succ n ih =>
    rw [envAfter_succ]
    simp [construct, RatioTracker.increment, ih]

theorem envAfter_subset (n : Nat) :
    (envAfter n).coldStartPercentage.subset = min n 1 := by
  induction n with
  | zero => rfl
  | succ n ih =>
    rw [envAfter_succ]
    simp [construct, RatioTracker.increment, ih, envAfter_predicate,
      envAfter_isColdStart]
    cases n <;> simp

theorem instanceAt_eq (k : Nat) :
    instanceAt k = ⟨decide (k = 0), k + 1⟩ := by
  simp [instanceAt, construct, RatioTracker.increment,
    envAfter_isColdStart, envAfter_total]

theorem runConstructions_fst (n : Nat) :
    (runConstructions n).1 = (List.range n).map instanceAt := by
  induction n with
  | zero => rfl
  | succ n ih =>
    simp [runConstructions, ih, List.range_succ, instanceAt, envAfter]

theorem cleanupBeforeRespond_extend (pre suf : List (Ev ε ρ))
    (hm : Ev.cleanup ∈ pre) (hp : cleanupBeforeRespond pre = true) :
    cleanupBeforeRespond (pre ++ suf) = true := by
  induction pre with
  | nil => simp at hm
  | cons hd tl ih =>
    cases hd with
    | cleanup => simp [cleanupBeforeRespond]
    | respond e r => simp [cleanupBeforeRespond] at hp
    | init =>
      simp [cleanupBeforeRespond] at hp ⊢
      exact ih (by simpa using hm) hp
    | process =>
      simp [cleanupBeforeRespond] at hp ⊢
      exact ih (by simpa using hm) hp
    | callbackFallback e =>
      simp [cleanupBeforeRespond] at hp ⊢
      exact ih (by simpa using hm) hp

theorem errorBranch_trace (b : Beh ε ρ) (c r : Nat) (e : ε)
    (pre : List (Ev ε ρ)) :
    ∃ tail, (errorBranch b c r e pre).trace = (pre ++ [Ev.cleanup]) ++ tail ∧
      countCleanup tail = 0 := by
  rcases errorBranch_spec b c r e pre with ⟨_, _, heq⟩ | ⟨ec, _, heq⟩ |
    ⟨e1, _, _, heq⟩
  · exact ⟨[Ev.respond (some e) none], by
      simp [heq, countCleanup, isCleanup]⟩
  · rcases rungC_spec b r ec (pre ++ [Ev.cleanup]) with ⟨_, heq2⟩ |
      ⟨e2, _, heq2⟩
    · exact ⟨[Ev.respond (some ec) none], by
        simp [heq, heq2, countCleanup, isCleanup]⟩
    · exact ⟨[Ev.respond (some ec) none, Ev.callbackFallback e2], by
        simp [heq, heq2, countCleanup, isCleanup]⟩
  · rcases rungC_spec b (r + 1) e1
        (pre ++ [Ev.cleanup, Ev.respond (some e) none]) with ⟨_, heq2⟩ |
      ⟨e2, _, heq2⟩
    · exact ⟨[Ev.respond (some e) none, Ev.respond (some e1) none], by
        simp [heq, heq2, countCleanup, isCleanup]⟩
    · exact ⟨[Ev.respond (some e) none, Ev.respond (some e1) none,
        Ev.callbackFallback e2], by
        simp [heq, heq2, countCleanup, isCleanup]⟩

/-- Claim C1 (amended): in every `invoke()` run, some cleanup run precedes
every respond delivery attempt, and cleanup runs regardless of whether
processing succeeded (at least once, at most twice); but it runs twice —
not once — exactly when init and process succeeded and then the
success-path cleanup or the first delivery attempt failed. -/
theorem invoke_cleanup_ordering (b : Beh ε ρ) :
    cleanupBeforeRespond (invoke b).trace = true ∧
    1 ≤ countCleanup (invoke b).trace ∧
    countCleanup (invoke b).trace ≤ 2 ∧
    (countCleanup (invoke b).trace = 2 ↔
      b.init = none ∧ (∃ res, b.process = Except.ok res) ∧
        ((∃ ec, b.cleanup 0 = some ec) ∨ ∃ e1, b.respond 0 = some e1)) := by
  rcases invoke_top_spec b with ⟨e, hi, heq⟩ | ⟨e, hi, hp, heq⟩ |
    ⟨res, ec, hi, hp, hc, heq⟩ | ⟨res, hi, hp, hc, hr, heq⟩ |
    ⟨res, e1, hi, hp, hc, hr, heq⟩
  · obtain ⟨tail, htr, hct⟩ := errorBranch_trace b 0 0 e [Ev.init]
    rw [heq, htr]
    refine ⟨cleanupBeforeRespond_extend [Ev.init, Ev.cleanup] tail
      (by simp) rfl, ?_⟩
    simp only [countCleanup, List.countP_append] at hct ⊢
    rw [hct]
    simp [List.countP_cons, List.countP_nil, isCleanup, hi]
  · obtain ⟨tail, htr, hct⟩ := errorBranch_trace b 0 0 e [Ev.init, Ev.process]
    rw [heq, htr]
    refine ⟨cleanupBeforeRespond_extend [Ev.init, Ev.process, Ev.cleanup] tail
      (by simp) rfl, ?_⟩
    simp only [countCleanup, List.countP_append] at hct ⊢
    rw [hct]
    simp [List.countP_cons, List.countP_nil, isCleanup, hi, hp]
  · obtain ⟨tail, htr, hct⟩ := errorBranch_trace b 1 0 ec
      [Ev.init, Ev.process, Ev.cleanup]
    rw [heq, htr]
    refine ⟨cleanupBeforeRespond_extend
      [Ev.init, Ev.process, Ev.cleanup, Ev.cleanup] tail (by simp) rfl, ?_⟩
    simp only [countCleanup, List.countP_append] at hct ⊢
    rw [hct]
    simp [List.countP_cons, List.countP_nil, isCleanup, hi, hp, hc]
  · rw [heq]
    simp [countCleanup, isCleanup, cleanupBeforeRespond, hi, hp, hc, hr]
  · obtain ⟨tail, htr, hct⟩ := errorBranch_trace b 1 1 e1
      [Ev.init, Ev.process, Ev.cleanup, Ev.respond none (some res)]
    rw [heq, htr]
    refine ⟨cleanupBeforeRespond_extend
      ([Ev.init, Ev.process, Ev.cleanup, Ev.respond none (some res)] ++
        [Ev.cleanup]) tail (by simp) rfl, ?_⟩
    simp only [countCleanup, List.countP_append] at hct ⊢
    rw [hct]
    simp [List.countP_cons, List.countP_nil, isCleanup, hi, hp, hr]

/-- Claim C1 counterexample: with every stage succeeding but the first
respond delivery attempt failing (error `5`), `cleanup` is executed twice
within one invocation, refuting "never runs twice". -/
theorem invoke_cleanup_twice_cex :
    behRespondFails.respond 0 = some 5 ∧
    (invoke behRespondFails).trace =
      [Ev.init, Ev.process, Ev.cleanup, Ev.respond none (some 7),
        Ev.cleanup, Ev.respond (some 5) none] ∧
    countCleanup (invoke behRespondFails).trace = 2 := by decide

theorem respondErrArgs_append (l1 l2 : List (Ev ε ρ)) :
    respondErrArgs (l1 ++ l2) = respondErrArgs l1 ++ respondErrArgs l2 := by
  induction l1 with
  | nil => rfl
  | cons hd tl ih => cases hd <;> simp [respondErrArgs, ih]

theorem fallbackErrors_append (l1 l2 : List (Ev ε ρ)) :
    fallbackErrors (l1 ++ l2) = fallbackErrors l1 ++ fallbackErrors l2 := by
  induction l1 with
  | nil => rfl
  | cons hd tl ih => cases hd <;> simp [fallbackErrors, ih]

theorem callbackCalls_append (l1 l2 : List (Ev ε ρ)) :
    callbackCalls (l1 ++ l2) = callbackCalls l1 ++ callbackCalls l2 := by
  induction l1 with
  | nil => rfl
  | cons hd tl ih => cases hd <;> simp [callbackCalls, ih]

/-- Claim C2 (amended): `respond` is attempted at most three times per
invocation and the raw-callback fallback happens at most once; the
attempt following a failed delivery attempt delivers exactly that failed
attempt's own error — except on the first retry after a success-path
delivery failure, where a second cleanup run is interposed and, if that
cleanup run fails, its error is delivered instead; and when every
delivery attempt fails, the raw platform callback is invoked directly,
exactly once, with the error of the last failed attempt. -/
theorem invoke_delivery_ladder (b : Beh ε ρ) :
    countRespond (invoke b).trace ≤ 3 ∧
    countFallback (invoke b).trace ≤ 1 ∧
    (∀ k, k + 1 < countRespond (invoke b).trace →
      ∃ ek, b.respond k = some ek ∧
        (respondErrArgs (invoke b).trace)[k + 1]? =
          some (some (if k == 0 && b.init.isNone && processOk b.process &&
              (b.cleanup 0).isNone then (b.cleanup 1).getD ek else ek))) ∧
    ((∀ k, k < countRespond (invoke b).trace → ∃ e, b.respond k = some e) →
      ∃ efin, b.respond (countRespond (invoke b).trace - 1) = some efin ∧
        fallbackErrors (invoke b).trace = [efin]) := by
  rcases invoke_top_spec b with ⟨e, hi, heq⟩ | ⟨e, hi, hp, heq⟩ |
    ⟨res, ec, hi, hp, hc, heq⟩ | ⟨res, hi, hp, hc, hr, heq⟩ |
    ⟨res, e1, hi, hp, hc, hr, heq⟩
  · rcases errorBranch_spec b 0 0 e [Ev.init] with ⟨hc1, hr1, heq2⟩ |
      ⟨ec1, hc1, heq2⟩ | ⟨ee1, hc1, hr1, heq2⟩
    · rw [heq, heq2]
      refine ⟨by simp [countRespond, isRespond],
        by simp [countFallback, isFallback], ?_, ?_⟩
      · intro k hk
        simp [countRespond, isRespond] at hk
      · intro hall
        obtain ⟨e2, he2⟩ := hall 0 (by simp [countRespond, isRespond])
        rw [hr1] at he2
        simp at he2
    · rcases rungC_spec b 0 ec1 ([Ev.init] ++ [Ev.cleanup]) with
        ⟨hr1, heq3⟩ | ⟨e2, hr1, heq3⟩
      · rw [heq, heq2, heq3]
        refine ⟨by simp [countRespond, isRespond, List.countP_append],
          by simp [countFallback, isFallback, List.countP_append], ?_, ?_⟩
        · intro k hk
          simp [countRespond, isRespond, List.countP_append] at hk
        · intro hall
          obtain ⟨e2, he2⟩ := hall 0
            (by simp [countRespond, isRespond, List.countP_append])
          rw [hr1] at he2
          simp at he2
      · rw [heq, heq2, heq3]
        refine ⟨by simp [countRespond, isRespond, List.countP_append],
          by simp [countFallback, isFallback, List.countP_append], ?_, ?_⟩
        · intro k hk
          simp [countRespond, isRespond, List.countP_append] at hk
        · intro hall
          refine ⟨e2, ?_,
            by simp [fallbackErrors, fallbackErrors_append]⟩
          simpa [countRespond, isRespond, List.countP_append] using hr1
    · rcases rungC_spec b 1 ee1
          ([Ev.init] ++ [Ev.cleanup, Ev.respond (some e) none]) with
        ⟨hr2, heq3⟩ | ⟨e2, hr2, heq3⟩
      · rw [heq, heq2, heq3]
        refine ⟨by simp [countRespond, isRespond, List.countP_append],
          by simp [countFallback, isFallback, List.countP_append], ?_, ?_⟩
        · intro k hk
          simp [countRespond, isRespond, List.countP_append] at hk
          rcases k with _ | k
          · exact ⟨ee1, hr1, by
              simp [respondErrArgs, respondErrArgs_append, hi]⟩
          · omega
        · intro hall
          obtain ⟨e2, he2⟩ := hall 1
            (by simp [countRespond, isRespond, List.countP_append])
          rw [hr2] at he2
          simp at he2
      · rw [heq, heq2, heq3]
        refine ⟨by simp [countRespond, isRespond, List.countP_append],
          by simp [countFallback, isFallback, List.countP_append], ?_, ?_⟩
        · intro k hk
          simp [countRespond, isRespond, List.countP_append] at hk
          rcases k with _ | k
          · exact ⟨ee1, hr1, by
              simp [respondErrArgs, respondErrArgs_append, hi]⟩
          · omega
        · intro hall
          refine ⟨e2, ?_,
            by simp [fallbackErrors, fallbackErrors_append]⟩
          simpa [countRespond, isRespond, List.countP_append] using hr2
  · rcases errorBranch_spec b 0 0 e [Ev.init, Ev.process] with
      ⟨hc1, hr1, heq2⟩ | ⟨ec1, hc1, heq2⟩ | ⟨ee1, hc1, hr1, heq2⟩
    · rw [heq, heq2]
      refine ⟨by simp [countRespond, isRespond],
        by simp [countFallback, isFallback], ?_, ?_⟩
      · intro k hk
        simp [countRespond, isRespond] at hk
      · intro hall
        obtain ⟨e2, he2⟩ := hall 0 (by simp [countRespond, isRespond])
        rw [hr1] at he2
        simp at he2
    · rcases rungC_spec b 0 ec1 ([Ev.init, Ev.process] ++ [Ev.cleanup]) with
        ⟨hr1, heq3⟩ | ⟨e2, hr1, heq3⟩
      · rw [heq, heq2, heq3]
        refine ⟨by simp [countRespond, isRespond, List.countP_append],
          by simp [countFallback, isFallback, List.countP_append], ?_, ?_⟩
        · intro k hk
          simp [countRespond, isRespond, List.countP_append] at hk
        · intro hall
          obtain ⟨e2, he2⟩ := hall 0
            (by simp [countRespond, isRespond, List.countP_append])
          rw [hr1] at he2
          simp at he2
      · rw [heq, heq2, heq3]
        refine ⟨by simp [countRespond, isRespond, List.countP_append],
          by simp [countFallback, isFallback, List.countP_append], ?_, ?_⟩
        · intro k hk
          simp [countRespond, isRespond, List.countP_append] at hk
        · intro hall
          refine ⟨e2, ?_,
            by simp [fallbackErrors, fallbackErrors_append]⟩
          simpa [countRespond, isRespond, List.countP_append] using hr1
    · rcases rungC_spec b 1 ee1
          ([Ev.init, Ev.process] ++ [Ev.cleanup, Ev.respond (some e) none])
        with ⟨hr2, heq3⟩ | ⟨e2, hr2, heq3⟩
      · rw [heq, heq2, heq3]
        refine ⟨by simp [countRespond, isRespond, List.countP_append],
          by simp [countFallback, isFallback, List.countP_append], ?_, ?_⟩
        · intro k hk
          simp [countRespond, isRespond, List.countP_append] at hk
          rcases k with _ | k
          · exact ⟨ee1, hr1, by
              simp [respondErrArgs, respondErrArgs_append, hi, hp, processOk]⟩
          · omega
        · intro hall
          obtain ⟨e2, he2⟩ := hall 1
            (by simp [countRespond, isRespond, List.countP_append])
          rw [hr2] at he2
          simp at he2
      · rw [heq, heq2, heq3]
        refine ⟨by simp [countRespond, isRespond, List.countP_append],
          by simp [countFallback, isFallback, List.countP_append], ?_, ?_⟩
        · intro k hk
          simp [countRespond, isRespond, List.countP_append] at hk
          rcases k with _ | k
          · exact ⟨ee1, hr1, by
              simp [respondErrArgs, respondErrArgs_append, hi, hp, processOk]⟩
          · omega
        · intro hall
          refine ⟨e2, ?_,
            by simp [fallbackErrors, fallbackErrors_append]⟩
          simpa [countRespond, isRespond, List.countP_append] using hr2
  · rcases errorBranch_spec b 1 0 ec [Ev.init, Ev.process, Ev.cleanup] with
      ⟨hc1, hr1, heq2⟩ | ⟨ec1, hc1, heq2⟩ | ⟨ee1, hc1, hr1, heq2⟩
    · rw [heq, heq2]
      refine ⟨by simp [countRespond, isRespond],
        by simp [countFallback, isFallback], ?_, ?_⟩
      · intro k hk
        simp [countRespond, isRespond] at hk
      · intro hall
        obtain ⟨e2, he2⟩ := hall 0 (by simp [countRespond, isRespond])
        rw [hr1] at he2
        simp at he2
    · rcases rungC_spec b 0 ec1
          ([Ev.init, Ev.process, Ev.cleanup] ++ [Ev.cleanup]) with
        ⟨hr1, heq3⟩ | ⟨e2, hr1, heq3⟩
      · rw [heq, heq2, heq3]
        refine ⟨by simp [countRespond, isRespond, List.countP_append],
          by simp [countFallback, isFallback, List.countP_append], ?_, ?_⟩
        · intro k hk
          simp [countRespond, isRespond, List.countP_append] at hk
        · intro hall
          obtain ⟨e2, he2⟩ := hall 0
            (by simp [countRespond, isRespond, List.countP_append])
          rw [hr1] at he2
          simp at he2
      · rw [heq, heq2, heq3]
        refine ⟨by simp [countRespond, isRespond, List.countP_append],
          by simp [countFallback, isFallback, List.countP_append], ?_, ?_⟩
        · intro k hk
          simp [countRespond, isRespond, List.countP_append] at hk
        · intro hall
          refine ⟨e2, ?_,
            by simp [fallbackErrors, fallbackErrors_append]⟩
          simpa [countRespond, isRespond, List.countP_append] using hr1
    · rcases rungC_spec b 1 ee1
          ([Ev.init, Ev.process, Ev.cleanup] ++
            [Ev.cleanup, Ev.respond (some ec) none]) with
        ⟨hr2, heq3⟩ | ⟨e2, hr2, heq3⟩
      · rw [heq, heq2, heq3]
        refine ⟨by simp [countRespond, isRespond, List.countP_append],
          by simp [countFallback, isFallback, List.countP_append], ?_, ?_⟩
        · intro k hk
          simp [countRespond, isRespond, List.countP_append] at hk
          rcases k with _ | k
          · exact ⟨ee1, hr1, by
              simp [respondErrArgs, respondErrArgs_append, hi, hp, hc,
                processOk]⟩
          · omega
        · intro hall
          obtain ⟨e2, he2⟩ := hall 1
            (by simp [countRespond, isRespond, List.countP_append])
          rw [hr2] at he2
          simp at he2
      · rw [heq, heq2, heq3]
        refine ⟨by simp [countRespond, isRespond, List.countP_append],
          by simp [countFallback, isFallback, List.countP_append], ?_, ?_⟩
        · intro k hk
          simp [countRespond, isRespond, List.countP_append] at hk
          rcases k with _ | k
          · exact ⟨ee1, hr1, by
              simp [respondErrArgs, respondErrArgs_append, hi, hp, hc,
                processOk]⟩
          · omega
        · intro hall
          refine ⟨e2, ?_,
            by simp [fallbackErrors, fallbackErrors_append]⟩
          simpa [countRespond, isRespond, List.countP_append] using hr2
  · rw [heq]
    refine ⟨by simp [countRespond, isRespond],
      by simp [countFallback, isFallback], ?_, ?_⟩
    · intro k hk
      simp [countRespond, isRespond] at hk
    · intro hall
      obtain ⟨e2, he2⟩ := hall 0 (by simp [countRespond, isRespond])
      rw [hr] at he2
      simp at he2
  · rcases errorBranch_spec b 1 1 e1
        [Ev.init, Ev.process, Ev.cleanup, Ev.respond none (some res)] with
      ⟨hc1, hr1, heq2⟩ | ⟨ec1, hc1, heq2⟩ | ⟨ee1, hc1, hr1, heq2⟩
    · rw [heq, heq2]
      refine ⟨by simp [countRespond, isRespond],
        by simp [countFallback, isFallback], ?_, ?_⟩
      · intro k hk
        simp [countRespond, isRespond] at hk
        rcases k with _ | k
        · exact ⟨e1, hr, by
            simp [respondErrArgs, respondErrArgs_append, hi, hp, hc, hc1,
              processOk]⟩
        · omega
      · intro hall
        obtain ⟨e2, he2⟩ := hall 1 (by simp [countRespond, isRespond])
        rw [hr1] at he2
        simp at he2
    · rcases rungC_spec b 1 ec1
          ([Ev.init, Ev.process, Ev.cleanup, Ev.respond none (some res)] ++
            [Ev.cleanup]) with ⟨hr1, heq3⟩ | ⟨e2, hr1, heq3⟩
      · rw [heq, heq2, heq3]
        refine ⟨by simp [countRespond, isRespond, List.countP_append],
          by simp [countFallback, isFallback, List.countP_append], ?_, ?_⟩
        · intro k hk
          simp [countRespond, isRespond, List.countP_append] at hk
          rcases k with _ | k
          · exact ⟨e1, hr, by
              simp [respondErrArgs, respondErrArgs_append, hi, hp, hc, hc1,
                processOk]⟩
          · omega
        · intro hall
          obtain ⟨e2, he2⟩ := hall 1
            (by simp [countRespond, isRespond, List.countP_append])
          rw [hr1] at he2
          simp at he2
      · rw [heq, heq2, heq3]
        refine ⟨by simp [countRespond, isRespond, List.countP_append],
          by simp [countFallback, isFallback, List.countP_append], ?_, ?_⟩
        · intro k hk
          simp [countRespond, isRespond, List.countP_append] at hk
          rcases k with _ | k
          · exact ⟨e1, hr, by
              simp [respondErrArgs, respondErrArgs_append, hi, hp, hc, hc1,
                processOk]⟩
          · omega
        · intro hall
          refine ⟨e2, ?_,
            by simp [fallbackErrors, fallbackErrors_append]⟩
          simpa [countRespond, isRespond, List.countP_append] using hr1
    · rcases rungC_spec b 2 ee1
          ([Ev.init, Ev.process, Ev.cleanup, Ev.respond none (some res)] ++
            [Ev.cleanup, Ev.respond (some e1) none]) with
        ⟨hr2, heq3⟩ | ⟨e2, hr2, heq3⟩
      · rw [heq, heq2, heq3]
        refine ⟨by simp [countRespond, isRespond, List.countP_append],
          by simp [countFallback, isFallback, List.countP_append], ?_, ?_⟩
        · intro k hk
          simp [countRespond, isRespond, List.countP_append] at hk
          rcases k with _ | _ | k
          · exact ⟨e1, hr, by
              simp [respondErrArgs, respondErrArgs_append, hi, hp, hc, hc1,
                processOk]⟩
          · exact ⟨ee1, hr1, by
              simp [respondErrArgs, respondErrArgs_append]⟩
          · omega
        · intro hall
          obtain ⟨e2, he2⟩ := hall 2
            (by simp [countRespond, isRespond, List.countP_append])
          rw [hr2] at he2
          simp at he2
      · rw [heq, heq2, heq3]
        refine ⟨by simp [countRespond, isRespond, List.countP_append],
          by simp [countFallback, isFallback, List.countP_append], ?_, ?_⟩
        · intro k hk
          simp [countRespond, isRespond, List.countP_append] at hk
          rcases k with _ | _ | k
          · exact ⟨e1, hr, by
              simp [respondErrArgs, respondErrArgs_append, hi, hp, hc, hc1,
                processOk]⟩
          · exact ⟨ee1, hr1, by
              simp [respondErrArgs, respondErrArgs_append]⟩
          · omega
        · intro hall
          refine ⟨e2, ?_,
            by simp [fallbackErrors, fallbackErrors_append]⟩
          simpa [countRespond, isRespond, List.countP_append] using hr2

/-- Claim C2 counterexample: the first delivery attempt fails with error
`5`, but because the interposed second cleanup run fails with error `9`,
the single retry delivers `9` — not the delivery error itself — through
the respond path, refuting the claim as stated. -/
theorem invoke_retry_arg_cex :
    behCleanupRetryFails.respond 0 = some 5 ∧
    respondErrArgs (invoke behCleanupRetryFails).trace =
      [none, some 9] := by decide

/-- Claim C2 witness: with every delivery attempt failing (attempt `n`
fails with `n + 1`), the raw callback receives the final error, once; and
at the behaviour whose interposed second cleanup run fails with `9`, the
retry rule instantiates to delivering exactly that cleanup error. -/
theorem invoke_delivery_ladder_w :
    fallbackErrors (invoke behAllDeliveriesFail).trace = [3] ∧
    (respondErrArgs (invoke behCleanupRetryFails).trace)[1]? =
      some (some 9) := by
  constructor
  · obtain ⟨efin, hefin, hfb⟩ :=
      (invoke_delivery_ladder behAllDeliveriesFail).2.2.2
        (fun k _ => ⟨k + 1, rfl⟩)
    have hcr : countRespond (invoke behAllDeliveriesFail).trace = 3 := by
      decide
    rw [hcr] at hefin
    simp [behAllDeliveriesFail] at hefin
    rw [hfb, hefin]
  · obtain ⟨ek, hek, harg⟩ :=
      (invoke_delivery_ladder behCleanupRetryFails).2.2.1 0 (by decide)
    simpa [behCleanupRetryFails, processOk] using harg

theorem errorBranch_c3 (b : Beh ε ρ) (c r : Nat) (e : ε)
    (pre : List (Ev ε ρ)) (h0 : countFallback pre = 0) :
    (errorBranch b c r e pre).outcome = none ∨
    (∃ ecb, b.callback = some ecb ∧
      (errorBranch b c r e pre).outcome = some ecb ∧
      countFallback (errorBranch b c r e pre).trace = 1) := by
  simp only [countFallback] at h0
  rcases errorBranch_spec b c r e pre with ⟨hc1, hr1, heq⟩ |
    ⟨ec1, hc1, heq⟩ | ⟨ee1, hc1, hr1, heq⟩
  · rw [heq]
    exact Or.inl rfl
  · rcases rungC_spec b r ec1 (pre ++ [Ev.cleanup]) with ⟨hr1, heq2⟩ |
      ⟨e2, hr1, heq2⟩
    · rw [heq, heq2]
      exact Or.inl rfl
    · rw [heq, heq2]
      rcases hcb : b.callback with _ | ecb
      · exact Or.inl (by simp [hcb])
      · refine Or.inr ⟨ecb, rfl, by simp [hcb], ?_⟩
        simp only [countFallback, List.countP_append, h0]
        simp [isFallback]
  · rcases rungC_spec b (r + 1) ee1
        (pre ++ [Ev.cleanup, Ev.respond (some e) none]) with ⟨hr2, heq2⟩ |
      ⟨e2, hr2, heq2⟩
    · rw [heq, heq2]
      exact Or.inl rfl
    · rw [heq, heq2]
      rcases hcb : b.callback with _ | ecb
      · exact Or.inl (by simp [hcb])
      · refine Or.inr ⟨ecb, rfl, by simp [hcb], ?_⟩
        simp only [countFallback, List.countP_append, h0]
        simp [isFallback]

/-- Claim C3 (amended): the promise returned by `invoke()` resolves in
every case except one — when the final raw-callback fallback is reached
and that callback itself throws, in which case the promise rejects with
that callback's error.  No init, process, cleanup or respond failure ever
escapes unhandled. -/
theorem invoke_promise_settles (b : Beh ε ρ) :
    (invoke b).outcome = none ∨
    (∃ ecb, b.callback = some ecb ∧ (invoke b).outcome = some ecb ∧
      countFallback (invoke b).trace = 1) := by
  rcases invoke_top_spec b with ⟨e, hi, heq⟩ | ⟨e, hi, hp, heq⟩ |
    ⟨res, ec, hi, hp, hc, heq⟩ | ⟨res, hi, hp, hc, hr, heq⟩ |
    ⟨res, e1, hi, hp, hc, hr, heq⟩
  · rw [heq]
    exact errorBranch_c3 b 0 0 e _ (by simp [countFallback, isFallback])
  · rw [heq]
    exact errorBranch_c3 b 0 0 e _ (by simp [countFallback, isFallback])
  · rw [heq]
    exact errorBranch_c3 b 1 0 ec _ (by simp [countFallback, isFallback])
  · rw [heq]
    exact Or.inl rfl
  · rw [heq]
    exact errorBranch_c3 b 1 1 e1 _ (by simp [countFallback, isFallback])

/-- Claim C3 counterexample: when all three delivery attempts fail and the
raw-callback fallback itself throws `3`, the promise returned by
`invoke()` rejects with `3`, refuting "always resolves and never
rejects". -/
theorem invoke_rejects_cex :
    behFallbackThrows.callback = some 3 ∧
    (invoke behFallbackThrows).outcome = some 3 := by decide

/-- Claim C9: with init, every cleanup run and every delivery attempt
succeeding (as under default options, where profiling is never enabled),
a processor returning `R` leads to the platform callback being invoked
exactly once, with `(null, R)`; a processor throwing `E` still gets a
cleanup run and leads to the callback being invoked exactly once, with
`(E, undefined)`. -/
theorem invoke_default_outcomes (b : Beh ε ρ) (R : ρ) (E : ε)
    (hi : b.init = none) (hc : ∀ n, b.cleanup n = none)
    (hr : ∀ n, b.respond n = none) :
    (b.process = Except.ok R →
      callbackCalls (invoke b).trace = [(none, some R)]) ∧
    (b.process = Except.error E →
      Ev.cleanup ∈ (invoke b).trace ∧
      callbackCalls (invoke b).trace = [(some E, none)]) := by
  constructor
  · intro hp
    simp [invoke, hi, hp, hc 0, hr 0, callbackCalls]
  · intro hp
    simp [invoke, hi, hp, errorBranch, hc 0, hr 0, callbackCalls]

/-- Claim C9 witness: the two end-to-end scenarios at concrete inputs. -/
theorem invoke_default_outcomes_w :
    callbackCalls (invoke behHappy).trace = [(none, some 7)] ∧
    (Ev.cleanup ∈ (invoke behProcessThrows).trace ∧
      callbackCalls (invoke behProcessThrows).trace = [(some 4, none)]) := by
  constructor
  · exact (invoke_default_outcomes behHappy 7 0 rfl (fun _ => rfl)
      (fun _ => rfl)).1 rfl
  · exact (invoke_default_outcomes behProcessThrows 0 4 rfl (fun _ => rfl)
      (fun _ => rfl)).2 rfl

/-- Claim C4: under the `PERCENTAGE` strategy the decision is true iff the
profiling tracker's percentage before this decision, scaled by 100, is
strictly below `options.profilePercentage` (with percentage `0` at
`total = 0`); and with target 20 from a fresh tracker the successive
decisions are true, false, false, false, false, false, true. -/
theorem percentage_strategy_decisions (p : ℚ) (inst : HandlerInstance)
    (t : RatioTracker Bool) :
    shouldProfile ⟨"PERCENTAGE", p⟩ inst t
      = decide (t.percentage * 100 < p) ∧
    (t.total = 0 → t.percentage = 0) ∧
    profileDecisions ⟨"PERCENTAGE", 20⟩ ⟨false, 1⟩ 7 freshProfileTracker
      = [true, false, false, false, false, false, true] := by
  refine ⟨by simp [shouldProfile],
    fun h => by simp [RatioTracker.percentage, h], ?_⟩
  have h1 : shouldProfile ⟨"PERCENTAGE", 20⟩ ⟨false, 1⟩
      ⟨fun b => b, 0, 0⟩ = true := by
    simp [shouldProfile, RatioTracker.percentage]
  have h2 : shouldProfile ⟨"PERCENTAGE", 20⟩ ⟨false, 1⟩
      ⟨fun b => b, 1, 1⟩ = false := by
    simp [shouldProfile, RatioTracker.percentage]
    norm_num
  have h3 : shouldProfile ⟨"PERCENTAGE", 20⟩ ⟨false, 1⟩
      ⟨fun b => b, 2, 1⟩ = false := by
    simp [shouldProfile, RatioTracker.percentage]
    norm_num
  have h4 : shouldProfile ⟨"PERCENTAGE", 20⟩ ⟨false, 1⟩
      ⟨fun b => b, 3, 1⟩ = false := by
    simp [shouldProfile, RatioTracker.percentage]
    norm_num
  have h5 : shouldProfile ⟨"PERCENTAGE", 20⟩ ⟨false, 1⟩
      ⟨fun b => b, 4, 1⟩ = false := by
    simp [shouldProfile, RatioTracker.percentage]
    norm_num
  have h6 : shouldProfile ⟨"PERCENTAGE", 20⟩ ⟨false, 1⟩
      ⟨fun b => b, 5, 1⟩ = false := by
    simp [shouldProfile, RatioTracker.percentage]
    norm_num
  have h7 : shouldProfile ⟨"PERCENTAGE", 20⟩ ⟨false, 1⟩
      ⟨fun b => b, 6, 1⟩ = true := by
    simp [shouldProfile, RatioTracker.percentage]
    norm_num
  simp [profileDecisions, initProfilingStep, RatioTracker.increment,
    freshProfileTracker, h1, h2, h3, h4, h5, h6, h7]

/-- Claim C4 witness: the strategy evaluated at the fresh tracker, where
the percentage (no decisions recorded yet) is `0`. -/
theorem percentage_strategy_decisions_w :
    freshProfileTracker.percentage = 0 ∧
    shouldProfile ⟨"PERCENTAGE", 20⟩ ⟨false, 1⟩ freshProfileTracker
      = decide (freshProfileTracker.percentage * 100 < 20) := by
  have h := percentage_strategy_decisions 20 ⟨false, 1⟩ freshProfileTracker
  exact ⟨h.2.1 rfl, h.1⟩

/-- Claim C5: under `ONE_COLD_ONE_WARM` the decision of the `(k+1)`-th
constructed handler (whose `totalInvocations` snapshot is `k + 1`) is
true exactly while the environment-wide invocation counter is below 3:
the first three invocations decide true, true, false and every later
invocation decides false. -/
theorem ocow_strategy_decisions (p : ℚ) (t : RatioTracker Bool) (k : Nat) :
    shouldProfile ⟨"ONE_COLD_ONE_WARM", p⟩ (instanceAt k) t
      = decide ((instanceAt k).totalInvocations < 3) ∧
    (instanceAt k).totalInvocations = k + 1 ∧
    shouldProfile ⟨"ONE_COLD_ONE_WARM", p⟩ (instanceAt k) t
      = decide (k < 2) ∧
    (List.range 3).map
        (fun j => shouldProfile ⟨"ONE_COLD_ONE_WARM", p⟩ (instanceAt j) t)
      = [true, true, false] ∧
    shouldProfile ⟨"ONE_COLD_ONE_WARM", p⟩ (instanceAt (k + 2)) t
      = false := by
  refine ⟨by simp [shouldProfile], by simp [instanceAt_eq], ?_, ?_, ?_⟩
  · simp [shouldProfile, instanceAt_eq]
    omega
  · simp [shouldProfile, instanceAt_eq, List.range_succ]
  · simp [shouldProfile, instanceAt_eq]

/-- Claim C6: in a fresh execution environment the `(k+1)`-th constructed
handler observes `isColdStart` true iff it is the first one; the
module-level flag starts true and is false after every construction,
never reset. -/
theorem cold_start_first_only (k : Nat) :
    (instanceAt k).isColdStart = decide (k = 0) ∧
    (envAfter 0).isColdStart = true ∧
    (envAfter (k + 1)).isColdStart = false := by
  refine ⟨by simp [instanceAt_eq], rfl, by simp [envAfter_isColdStart]⟩

/-- Claim C10: after the `(k+1)`-th construction the shared cold-start
tracker has `total = k + 1` and `subset = 1` (only the first construction
was counted as cold), and in any longer run of `N` constructions the
`(k+1)`-th instance's `totalInvocations` snapshot is still `k + 1`. -/
theorem constructor_snapshot_metrics (N k : Nat) (h : k < N) :
    (runConstructions N).1[k]? = some ⟨decide (k = 0), k + 1⟩ ∧
    (envAfter (k + 1)).coldStartPercentage.total = k + 1 ∧
    (envAfter (k + 1)).coldStartPercentage.subset = 1 := by
  refine ⟨?_, envAfter_total (k + 1), by simp [envAfter_subset]⟩
  rw [runConstructions_fst]
  simp [h, instanceAt_eq]

/-- Claim C10 witness: the second of three constructions. -/
theorem constructor_snapshot_metrics_w :
    1 < 3 ∧
    ((runConstructions 3).1[1]? = some ⟨decide (1 = 0), 1 + 1⟩ ∧
      (envAfter (1 + 1)).coldStartPercentage.total = 1 + 1 ∧
      (envAfter (1 + 1)).coldStartPercentage.subset = 1) :=
  ⟨by decide, constructor_snapshot_metrics 3 1 (by decide)⟩

/-- Claim C7 (amended): when profiling was enabled and the profiler
binding is present, `stopProfiling` releases the profile object exactly
when the encode step does not throw (or is skipped because the compressor
binding is absent); an encode throw skips the release and propagates out
of `stopProfiling` as a cleanup-stage error instead of being swallowed. -/
theorem stopProfiling_release_conditional (st : ProfState)
    (enc : Except ε String) (h1 : st.profilingEnabled = true)
    (h2 : st.profilerLoaded = true) :
    (stopProfiling st enc).stoppedProfiler = true ∧
    ((stopProfiling st enc).deleted = true ↔
      st.zlibLoaded = false ∨ ∃ s, enc = Except.ok s) ∧
    ((stopProfiling st enc).error = none ↔
      st.zlibLoaded = false ∨ ∃ s, enc = Except.ok s) := by
  rcases st with ⟨pe, pl, zl⟩
  simp only at h1 h2
  subst h1
  subst h2
  cases zl <;> cases enc <;> simp [stopProfiling]

/-- Claim C7 counterexample: with profiling enabled, both bindings
present and the encode step throwing `7`, the profile object's release is
skipped and the error escapes `stopProfiling`, refuting "released
regardless" and "failure swallowed". -/
theorem stopProfiling_encode_throw_cex :
    (stopProfiling ⟨true, true, true⟩ (Except.error (7 : Nat))).deleted
      = false ∧
    (stopProfiling ⟨true, true, true⟩ (Except.error (7 : Nat))).error
      = some 7 := by decide

/-- Claim C7 witness: when the encode step succeeds the release is
performed. -/
theorem stopProfiling_release_conditional_w :
    (stopProfiling (⟨true, true, true⟩ : ProfState)
      (Except.ok "x" : Except Nat String)).deleted = true := by
  have h := (stopProfiling_release_conditional
    (⟨true, true, true⟩ : ProfState) (Except.ok "x" : Except Nat String)
    rfl rfl).2.1
  exact h.mpr (Or.inr ⟨"x", rfl⟩)

theorem foldl_increment_le {α : Type} (vs : List α) (t : RatioTracker α)
    (h : t.subset ≤ t.total) :
    (vs.foldl RatioTracker.increment t).subset
      ≤ (vs.foldl RatioTracker.increment t).total := by
  induction vs generalizing t with
  | nil => exact h
  | cons v vs ih =>
    apply ih
    simp only [RatioTracker.increment]
    split <;> omega

/-- Claim C8: `increment(value)` adds 1 to `total` and adds 1 to `subset`
iff the predicate holds of the value; `percentage()` is `subset / total`
with `0` at `total = 0`, so after an increment it equals
`(previous_subset + indicator) / (previous_total + 1)`; and `subset ≤
total` is preserved by every sequence of increments. -/
theorem ratioTracker_invariant {α : Type} (t : RatioTracker α) (v : α) :
    (t.increment v).total = t.total + 1 ∧
    (t.increment v).subset = t.subset + (if t.predicate v then 1 else 0) ∧
    (t.percentage = if t.total = 0 then 0 else (t.subset : ℚ) / t.total) ∧
    (t.increment v).percentage
      = ((t.subset : ℚ) + (if t.predicate v then 1 else 0))
        / ((t.total : ℚ) + 1) ∧
    (t.subset ≤ t.total →
      (t.increment v).subset ≤ (t.increment v).total ∧
      ∀ vs : List α, (vs.foldl RatioTracker.increment t).subset
        ≤ (vs.foldl RatioTracker.increment t).total) := by
  refine ⟨rfl, rfl, rfl, ?_, ?_⟩
  · rcases hp : t.predicate v with _ | _ <;>
      simp [RatioTracker.increment, RatioTracker.percentage, hp]
  · intro h
    refine ⟨?_, fun vs => foldl_increment_le vs t h⟩
    simp only [RatioTracker.increment]
    split <;> omega

/-- Claim C8 witness: the invariant applied at a concrete tracker with
two further increments. -/
theorem ratioTracker_invariant_w :
    ((⟨fun b => b, 2, 1⟩ : RatioTracker Bool).increment true).subset
      ≤ ((⟨fun b => b, 2, 1⟩ : RatioTracker Bool).increment true).total ∧
    (([true, false]).foldl RatioTracker.increment
        (⟨fun b => b, 2, 1⟩ : RatioTracker Bool)).subset
      ≤ (([true, false]).foldl RatioTracker.increment
        (⟨fun b => b, 2, 1⟩ : RatioTracker Bool)).total := by
  have h := (ratioTracker_invariant (⟨fun b => b, 2, 1⟩ : RatioTracker Bool)
    true).2.2.2.2 (by decide)
  exact ⟨h.1, h.2 [true, false]⟩

end LambdaPatterns
